import Mathlib

/-!
Verification of the `CourseFilter` component
(`src/js/components/courseFilter.js`).

The component keeps a list of course cards, a map from filter dimension
names to selected values (sentinel `"all"` = unconstrained), and a derived
list `filteredCourses`.  Below we embed the data model and the state
mutating operations (`updateFilter`, `applyFilters`, `handleSearch`,
`clearAllFilters`, `setFilters`, `loadCourses`, `destroy`) as pure Lean
functions over an explicit state record, and prove the specification
claims about them.

String primitives are re-implemented by structural recursion over
`List Char` so that every definition evaluates by kernel reduction; each
mirrors the JavaScript string method used by the source.
-/

namespace CourseFilter

/-- Mirrors JavaScript `String.prototype.toLowerCase` (ASCII letters,
which is all the source data uses). -/
def lowerStr (s : String) : String := ⟨s.data.map Char.toLower⟩

/-- Characters removed by JavaScript `String.prototype.trim`. -/
def isWs (c : Char) : Bool := c == ' ' || c == '\t' || c == '\n' || c == '\r'

/-- Drop whitespace from both ends of a character list. -/
def trimChars (l : List Char) : List Char :=
  ((l.dropWhile isWs).reverse.dropWhile isWs).reverse

/-- Mirrors JavaScript `String.prototype.trim`. -/
def trimStr (s : String) : String := ⟨trimChars s.data⟩

/-- Split a character list at commas; mirrors `String.prototype.split(',')`
(so the empty list yields one empty piece). -/
def splitComma : List Char → List (List Char)
  | [] => [[]]
  | c :: rest =>
    match splitComma rest, c == ',' with
    | r, true => [] :: r
    | [], false => [[c]]
    | h :: t, false => (c :: h) :: t

/-- `courseValue.split(',').map(v => v.trim())` from `applyFilters`. -/
def splitCommaTrim (s : String) : List String :=
  (splitComma s.data).map (fun l => ⟨trimChars l⟩)

/-- `leadEq pre l` holds when `pre` is an initial run of `l`. -/
def leadEq : List Char → List Char → Bool
  | [], _ => true
  | _ :: _, [] => false
  | a :: as, b :: bs => a == b && leadEq as bs

/-- Helper for `strIncludes`: does `sub` start at some position of `hay`? -/
def inclChars (hay sub : List Char) : Bool :=
  match hay with
  | [] => sub.isEmpty
  | _ :: t => leadEq sub hay || inclChars t sub

/-- Mirrors JavaScript `String.prototype.includes` (substring test;
the empty string is a substring of everything). -/
def strIncludes (s sub : String) : Bool := inclChars s.data sub.data

/-- A course card.  `attrs` are its `data-*` attributes (`dataset`);
`title` and `description` are the text contents of the optional
`.course-title` / `.course-description` child elements (`none` when the
element is absent). -/
structure Course where
  attrs : List (String × String)
  title : Option String
  description : Option String
  deriving DecidableEq

/-- `course.dataset[ty]` / `course.getAttribute('data-' + ty)`: both read
the same attribute, so a single lookup models the `||` chain. -/
def attrValue (c : Course) (ty : String) : Option String :=
  (c.attrs.find? (fun p => p.1 == ty)).map (fun p => p.2)

/-- The per-dimension predicate of `applyFilters` (lines 154-164):
`"all"` short-circuits to true; a missing attribute (`null`) never equals
a string; an attribute containing a comma is tested by membership in its
split-and-trimmed pieces; otherwise strict equality.  (The JavaScript
guard `courseValue && courseValue.includes(',')` also rejects the empty
string, but the empty string contains no comma anyway.) -/
def dimPred (filterValue : String) (courseValue : Option String) : Bool :=
  if filterValue == "all" then true
  else
    match courseValue with
    | none => false
    | some cv =>
      if cv.data.any (fun ch => ch == ',') then
        (splitCommaTrim cv).contains filterValue
      else cv == filterValue

/-- The whole-course predicate of `applyFilters`:
`Object.entries(this.filters).every(...)`. -/
def matchesFilters (filters : List (String × String)) (c : Course) : Bool :=
  filters.all (fun p => dimPred p.2 (attrValue c p.1))

/-- The per-course search predicate of `handleSearch` (lines 178-184):
the normalized term occurs in the lowercased title, description, or
`data-tags` value (each defaulting to the empty string when absent). -/
def matchesSearch (t : String) (c : Course) : Bool :=
  strIncludes (lowerStr (c.title.getD "")) t ||
  strIncludes (lowerStr (c.description.getD "")) t ||
  strIncludes (lowerStr ((attrValue c "tags").getD "")) t

/-- `searchTerm.toLowerCase().trim()` from `handleSearch`. -/
def searchNorm (t : String) : String := trimStr (lowerStr t)

/-- The component state: the `filters` object (an insertion-ordered
string map), the loaded `courses`, the derived `filteredCourses`, and the
value of the `.course-search-input` element. -/
structure FilterSt where
  filters : List (String × String)
  courses : List Course
  filteredCourses : List Course
  searchInput : String
  deriving DecidableEq

/-- The constructor's initial `this.filters` object. -/
def defaultFilters : List (String × String) :=
  [("level", "all"), ("language", "all"), ("format", "all"),
   ("schedule", "all"), ("price", "all")]

/-- State after `loadCourses` at construction: all dimensions `"all"`,
`filteredCourses = [...courses]`, empty search box. -/
def initState (cs : List Course) : FilterSt :=
  ⟨defaultFilters, cs, cs, ""⟩

/-- JavaScript property assignment `obj[k] = v`: an existing key keeps
its position and gets the new value; a new key is appended. -/
def setKey : List (String × String) → String → String → List (String × String)
  | [], k, v => [(k, v)]
  | (k', v') :: rest, k, v =>
    if k' == k then (k, v) :: rest else (k', v') :: setKey rest k v

/-- `Object.assign(this.filters, newFilters)`. -/
def assignAll (fs nf : List (String × String)) : List (String × String) :=
  nf.foldl (fun acc p => setKey acc p.1 p.2) fs

/-- `applyFilters()` (lines 152-167): recompute `filteredCourses` from the
full course list and the current filters. -/
def applyFilters (s : FilterSt) : FilterSt :=
  { s with filteredCourses := s.courses.filter (matchesFilters s.filters) }

/-- `updateFilter(type, value)` (lines 144-147): assign the key, then
reapply the filters.  There is no check that `type` is recognized. -/
def updateFilter (ty v : String) (s : FilterSt) : FilterSt :=
  applyFilters { s with filters := setKey s.filters ty v }

/-- `handleSearch(searchTerm)` (lines 172-195), together with the typing
that put `searchTerm` into the search input.  An empty normalized term
recomputes from the filters alone; a non-empty term narrows the *current*
`filteredCourses`. -/
def handleSearch (term : String) (s : FilterSt) : FilterSt :=
  let t := searchNorm term
  if t == "" then applyFilters { s with searchInput := term }
  else { s with searchInput := term,
                filteredCourses := s.filteredCourses.filter (matchesSearch t) }

/-- `clearAllFilters()` (lines 314-343): every key of `filters` is reset
to `"all"`, the search input is emptied, and `filteredCourses` is reset to
a copy of `courses`. -/
def clearAllFilters (s : FilterSt) : FilterSt :=
  { s with filters := s.filters.map (fun p => (p.1, "all")),
           searchInput := "",
           filteredCourses := s.courses }

/-- `setFilters(newFilters)` (lines 423-435): merge the new entries into
`filters`, then reapply. -/
def setFilters (nf : List (String × String)) (s : FilterSt) : FilterSt :=
  applyFilters { s with filters := assignAll s.filters nf }

/-- `loadCourses()` (lines 200-203) with the DOM query result `cs`. -/
def loadCourses (cs : List Course) (s : FilterSt) : FilterSt :=
  { s with courses := cs, filteredCourses := cs }

/-- `destroy()` (lines 440-451): clears both course lists. -/
def destroy (s : FilterSt) : FilterSt :=
  { s with courses := [], filteredCourses := [] }

/-- A plain beginner-level course card with no title or description. -/
def cPlain : Course := ⟨[("level", "beginner")], none, none⟩

/-- First beginner course of the three-course scenario. -/
def cBeg1 : Course := ⟨[("level", "beginner")], some "Course One", none⟩

/-- Second beginner course of the three-course scenario. -/
def cBeg2 : Course := ⟨[("level", "beginner")], some "Course Two", none⟩

/-- The advanced course of the three-course scenario. -/
def cAdv : Course := ⟨[("level", "advanced")], some "Course Three", none⟩

/-- Course card carrying `data-tags="english,business"`. -/
def cTag : Course := ⟨[("tags", "english,business")], some "Business English", none⟩

theorem mem_applyFilters (s : FilterSt) (c : Course) :
    c ∈ (applyFilters s).filteredCourses ↔
      c ∈ s.courses ∧ matchesFilters s.filters c = true := by
  simp [applyFilters, List.mem_filter]

end CourseFilter

namespace CourseFilter

/-- Claim C6: filtering with every dimension of the FilterState set to the
sentinel `"all"` recomputes the filtered list as the full course list
unchanged — the all-`"all"` state is an identity for `applyFilters`. -/
theorem applyFilters_all_sentinel_id (s : FilterSt)
    (h : ∀ p ∈ s.filters, p.2 = "all") :
    (applyFilters s).filteredCourses = s.courses := by
  unfold applyFilters
  refine List.filter_eq_self.mpr (fun c _ => ?_)
  refine List.all_eq_true.mpr (fun p hp => ?_)
  have h2 := h p hp
  simp [dimPred, h2]

/-- Witness for C6: on one concrete beginner course in the initial state,
the recomputed list is the full list. -/
theorem applyFilters_all_sentinel_id_wit :
    (applyFilters (initState [cPlain])).filteredCourses =
      (initState [cPlain]).courses :=
  applyFilters_all_sentinel_id (initState [cPlain]) (by decide)

/-- Claim C7: searching with the empty term recomputes the filtered list
from the FilterState alone — exactly the result of filtering the full
course list with the current filters, as if no search constraint existed. -/
theorem handleSearch_empty_term (s : FilterSt) :
    (handleSearch "" s).filteredCourses =
      s.courses.filter (matchesFilters s.filters) := rfl

/-- Claim C8: with three courses whose levels are beginner, beginner,
advanced, selecting `level = "beginner"` yields exactly the first two
courses, in their original order. -/
theorem updateFilter_beginner_scenario :
    (updateFilter "level" "beginner"
        (initState [cBeg1, cBeg2, cAdv])).filteredCourses = [cBeg1, cBeg2] := by
  decide

/-- Claim C5: `clearAllFilters` is idempotent, and afterwards every
dimension of the FilterState is `"all"`, the search input is empty, and
the filtered list is the full course list. -/
theorem clearAllFilters_idempotent_resets (s : FilterSt) :
    clearAllFilters (clearAllFilters s) = clearAllFilters s ∧
    (∀ p ∈ (clearAllFilters s).filters, p.2 = "all") ∧
    (clearAllFilters s).searchInput = "" ∧
    (clearAllFilters s).filteredCourses = s.courses := by
  refine ⟨?_, ?_, rfl, rfl⟩
  · simp [clearAllFilters, List.map_map, Function.comp]
  · intro p hp
    simp only [clearAllFilters, List.mem_map] at hp
    obtain ⟨q, _, rfl⟩ := hp
    rfl

end CourseFilter

namespace CourseFilter

/-- The states reachable from construction over course list `cs` by any
sequence of the component's operations. -/
inductive Reachable (cs : List Course) : FilterSt → Prop
  | init : Reachable cs (initState cs)
  | update (ty v : String) {s : FilterSt} :
      Reachable cs s → Reachable cs (updateFilter ty v s)
  | search (term : String) {s : FilterSt} :
      Reachable cs s → Reachable cs (handleSearch term s)
  | assign (nf : List (String × String)) {s : FilterSt} :
      Reachable cs s → Reachable cs (setFilters nf s)
  | clear {s : FilterSt} :
      Reachable cs s → Reachable cs (clearAllFilters s)
  | load (cs2 : List Course) {s : FilterSt} :
      Reachable cs s → Reachable cs (loadCourses cs2 s)
  | dest {s : FilterSt} :
      Reachable cs s → Reachable cs (destroy s)

/-- Claim C9: after any sequence of operations, `filteredCourses` is an
order-preserving subsequence (`List.Sublist`) of `courses`: every element
occurs in the course list, with multiplicity and relative order
preserved. -/
theorem filtered_sublist_courses (cs : List Course) (s : FilterSt)
    (h : Reachable cs s) : s.filteredCourses.Sublist s.courses := by
  induction h with
  | init => exact List.Sublist.refl _
  | update ty v _ _ => exact List.filter_sublist _
  | search term _ ih =>
      unfold handleSearch
      by_cases he : searchNorm term == ""
      · simp only [he, if_pos]
        exact List.filter_sublist _
      · simp only [he, if_neg, Bool.false_eq_true, not_false_iff]
        exact (List.filter_sublist _).trans ih
  | assign nf _ _ => exact List.filter_sublist _
  | clear _ _ => exact List.Sublist.refl _
  | load cs2 _ _ => exact List.Sublist.refl _
  | dest _ _ => exact List.Sublist.refl _

/-- Witness for C9: a concrete reachable state (a search for `"x"` after
construction over one course) has its filtered list a sublist of its
course list. -/
theorem filtered_sublist_courses_wit :
    (handleSearch "x" (initState [cPlain])).filteredCourses.Sublist
      (handleSearch "x" (initState [cPlain])).courses :=
  filtered_sublist_courses [cPlain] _
    (Reachable.search "x" Reachable.init)

theorem setKey_of_fresh (fs : List (String × String)) (ty v : String)
    (h : ∀ p ∈ fs, p.1 ≠ ty) : setKey fs ty v = fs ++ [(ty, v)] := by
  induction fs with
  | nil => rfl
  | cons q rest ih =>
      have hq : (q.1 == ty) = false :=
        beq_eq_false_iff_ne.mpr (h q (List.mem_cons_self q rest))
      cases q with
      | mk k' v' =>
          simp only [setKey, hq, if_neg, Bool.false_eq_true, not_false_iff,
            List.cons_append, List.cons.injEq, true_and]
          exact ih (fun p hp => h p (List.mem_cons_of_mem _ hp))

/-- Counterexample to claim C2 as stated: on one beginner course, setting
the unrecognized dimension `"format2"` is not a no-op — it changes the
FilterState and empties the recomputed filtered list. -/
theorem updateFilter_unrecognized_not_noop :
    ¬ ((updateFilter "format2" "video" (initState [cPlain])).filters =
         (initState [cPlain]).filters ∧
       (updateFilter "format2" "video" (initState [cPlain])).filteredCourses =
         (initState [cPlain]).filteredCourses) := by decide

/-- Claim C2 (amended): setting a dimension whose name is not already a
key of the FilterState appends it as a new dimension, which is then
filtered on like any other — with a value other than `"all"`, every
course lacking that attribute is excluded from the recomputed list. -/
theorem updateFilter_unrecognized_excludes (s : FilterSt) (ty v : String)
    (c : Course) (hk : ∀ p ∈ s.filters, p.1 ≠ ty) (hv : v ≠ "all")
    (hc : attrValue c ty = none) :
    (updateFilter ty v s).filters = s.filters ++ [(ty, v)] ∧
    c ∉ (updateFilter ty v s).filteredCourses := by
  have hset : setKey s.filters ty v = s.filters ++ [(ty, v)] :=
    setKey_of_fresh s.filters ty v hk
  refine ⟨hset, fun hmem => ?_⟩
  have h2 := ((mem_applyFilters _ c).mp hmem).2
  have h3 := List.all_eq_true.mp h2 (ty, v)
    (by rw [hset]; exact List.mem_append_right _ (List.mem_singleton.mpr rfl))
  have hv' : (v == "all") = false := beq_eq_false_iff_ne.mpr hv
  simp [dimPred, hc, hv'] at h3

/-- Witness for C2 (amended): `"format2"` is fresh for the initial
FilterState, and the single course (which has no `data-format2`) is
excluded after `updateFilter("format2", "video")`. -/
theorem updateFilter_unrecognized_excludes_wit :
    (updateFilter "format2" "video" (initState [cPlain])).filters =
      (initState [cPlain]).filters ++ [("format2", "video")] ∧
    cPlain ∉ (updateFilter "format2" "video" (initState [cPlain])).filteredCourses :=
  updateFilter_unrecognized_excludes (initState [cPlain]) "format2" "video"
    cPlain (by decide) (by decide) (by decide)

/-- Course card whose `data-level` attribute is present but empty. -/
def cEmptyAttr : Course := ⟨[("level", "")], none, none⟩

/-- Counterexample to claim C10 as stated: a course whose `data-level`
attribute is the empty string is *kept* when the level dimension is set to
the empty string — a value other than `"all"` — because the exact-equality
test `"" === ""` succeeds. -/
theorem empty_attr_not_excluded_cex :
    attrValue cEmptyAttr "level" = some "" ∧ ("" : String) ≠ "all" ∧
    ¬ (cEmptyAttr ∉
        (updateFilter "level" "" (initState [cEmptyAttr])).filteredCourses) := by
  decide

/-- Claim C10 (amended): with a dimension set to a value other than
`"all"`, the recomputed list excludes every course whose attribute for
that dimension is missing; a course whose attribute is the empty string is
likewise excluded unless the selected value is itself the empty string. -/
theorem applyFilters_missing_attr_excluded (s : FilterSt) (ty v : String)
    (c : Course) (hmem : (ty, v) ∈ s.filters) (hv : v ≠ "all")
    (hattr : attrValue c ty = none ∨ (attrValue c ty = some "" ∧ v ≠ "")) :
    c ∉ (applyFilters s).filteredCourses := by
  intro hc
  have h2 := ((mem_applyFilters s c).mp hc).2
  have h3 := List.all_eq_true.mp h2 (ty, v) hmem
  have hv' : (v == "all") = false := beq_eq_false_iff_ne.mpr hv
  rcases hattr with hn | ⟨he, hne⟩
  · simp [dimPred, hn, hv'] at h3
  · have hne' : (("" : String) == v) = false :=
      beq_eq_false_iff_ne.mpr (fun h => hne h.symm)
    simp [dimPred, he, hv', hne'] at h3

/-- Witness for C10 (amended): a course without a `data-level` attribute
is excluded once the FilterState holds `level = "beginner"`. -/
theorem applyFilters_missing_attr_excluded_wit :
    cTag ∉ (applyFilters
        ⟨[("level", "beginner")], [cTag], [cTag], ""⟩).filteredCourses :=
  applyFilters_missing_attr_excluded
    ⟨[("level", "beginner")], [cTag], [cTag], ""⟩ "level" "beginner" cTag
    (by decide) (by decide) (Or.inl (by decide))

/-- The state after searching for `"a"` and then re-selecting
`level = "all"`, starting from one course that does not match `"a"`. -/
def cexSeqState : FilterSt :=
  updateFilter "level" "all" (handleSearch "a" (initState [cPlain]))

/-- Counterexample to claim C1 as stated: after `handleSearch("a")`
followed by `updateFilter("level", "all")`, the search input still holds
the non-empty term `"a"`, the course does not match it, yet the course is
in `filteredCourses` — the filter update recomputed from the FilterState
alone and discarded the search constraint. -/
theorem visible_set_invariant_cex :
    ¬ (∀ c ∈ cexSeqState.courses,
        (c ∈ cexSeqState.filteredCourses ↔
          (matchesFilters cexSeqState.filters c = true ∧
           (searchNorm cexSeqState.searchInput = "" ∨
            matchesSearch (searchNorm cexSeqState.searchInput) c = true)))) := by
  decide

/-- Claim C1 (amended): the invariant holds for the combination of one
filter update immediately followed by one search: after
`updateFilter(ty, v)` then `handleSearch(term)`, a course is in
`filteredCourses` iff it is in `courses`, matches the updated FilterState,
and (when the normalized term is non-empty) matches the search term.  It
does not hold after arbitrary sequences: a later filter update recomputes
from the FilterState alone, discarding the previously entered term, and a
second search narrows the previous result rather than the full list. -/
theorem filter_then_search_exact (s : FilterSt) (ty v term : String)
    (c : Course) :
    c ∈ (handleSearch term (updateFilter ty v s)).filteredCourses ↔
      (c ∈ s.courses ∧ matchesFilters (setKey s.filters ty v) c = true ∧
       (searchNorm term = "" ∨ matchesSearch (searchNorm term) c = true)) := by
  by_cases he : searchNorm term = ""
  · simp [handleSearch, he, updateFilter, applyFilters, List.mem_filter]
  · have hb : (searchNorm term == "") = false := beq_eq_false_iff_ne.mpr he
    simp [handleSearch, hb, updateFilter, applyFilters, List.mem_filter, he,
      and_assoc]
    exact fun _ => and_comm

/-- The claim C3 matching rule read literally as a three-way disjunction:
value is `"all"`, or the attribute is comma-separated and the value is in
the split-and-trimmed set, or the attribute equals the value exactly. -/
def claimC3Dim (v : String) (cv : Option String) : Bool :=
  v == "all" ||
  (match cv with
   | some a =>
       (a.data.any (fun ch => ch == ',') && (splitCommaTrim a).contains v) ||
       a == v
   | none => false)

/-- Course card whose `data-level` attribute is the comma-containing
string `"a,b"`. -/
def cComma : Course := ⟨[("level", "a,b")], none, none⟩

/-- Counterexample to claim C3 as stated: selecting `level = "a,b"` for a
course whose `data-level` is exactly `"a,b"` satisfies the claim's
disjunction (exact equality), yet the code excludes the course: a
comma-containing attribute is only ever tested by membership in its split
set, and `"a,b"` is not among `["a", "b"]`. -/
theorem applyFilters_comma_exact_cex :
    ¬ (cComma ∈ (updateFilter "level" "a,b" (initState [cComma])).filteredCourses ↔
       ∀ p ∈ (updateFilter "level" "a,b" (initState [cComma])).filters,
         claimC3Dim p.2 (attrValue cComma p.1) = true) := by
  decide

/-- Transcribes the amended C3 per-dimension rule: keep when the value is
`"all"`; otherwise a missing attribute never matches; an attribute that
contains a comma matches exactly when the value is a member of its
split-and-trimmed pieces (exact equality is not tested in this case); any
other attribute matches exactly when it equals the value. -/
def specDimensionKeep (v : String) (cv : Option String) : Bool :=
  v == "all" ||
  (match cv with
   | none => false
   | some a =>
       if a.data.any (fun ch => ch == ',') then (splitCommaTrim a).contains v
       else a == v)

theorem dimPred_eq_spec (v : String) (cv : Option String) :
    dimPred v cv = specDimensionKeep v cv := by
  unfold dimPred specDimensionKeep
  by_cases h : (v == "all") = true
  · simp [h]
  · simp only [Bool.not_eq_true] at h
    simp [h]

/-- Claim C3 (amended): the recomputed list keeps a course iff every
dimension of the FilterState satisfies: the value is `"all"`, or the
attribute is comma-separated and the value is a member of the
split-and-trimmed set, or else (only when the attribute has no comma) the
attribute equals the value exactly; a missing attribute never matches. -/
theorem applyFilters_keeps_iff (s : FilterSt) (c : Course) :
    c ∈ (applyFilters s).filteredCourses ↔
      c ∈ s.courses ∧
      ∀ p ∈ s.filters, specDimensionKeep p.2 (attrValue c p.1) = true := by
  rw [mem_applyFilters]
  simp [matchesFilters, List.all_eq_true, dimPred_eq_spec]

/-- Claim C4: for a non-empty normalized term, `handleSearch` lowercases
and trims the term and keeps exactly those courses of the current filtered
list whose lowercased title, description, or tags contain it as a
substring; in particular the course with `data-tags="english,business"` is
matched by `"bus"` and not by `"span"`. -/
theorem handleSearch_substring (s : FilterSt) (term : String)
    (h : searchNorm term ≠ "") :
    (∀ c, c ∈ (handleSearch term s).filteredCourses ↔
       c ∈ s.filteredCourses ∧
       (strIncludes (lowerStr (c.title.getD "")) (searchNorm term) ||
        strIncludes (lowerStr (c.description.getD "")) (searchNorm term) ||
        strIncludes (lowerStr ((attrValue c "tags").getD "")) (searchNorm term))
         = true) ∧
    cTag ∈ (handleSearch "bus" (initState [cTag])).filteredCourses ∧
    cTag ∉ (handleSearch "span" (initState [cTag])).filteredCourses := by
  refine ⟨fun c => ?_, by decide, by decide⟩
  have hb : (searchNorm term == "") = false := beq_eq_false_iff_ne.mpr h
  simp [handleSearch, hb, List.mem_filter, matchesSearch]

/-- Witness for C4: searching `"One"` over a state whose filtered list
holds the course titled `"Course One"` keeps that course, matching the
substring test on the normalized term. -/
theorem handleSearch_substring_wit :
    cBeg1 ∈ (handleSearch "One" (initState [cBeg1])).filteredCourses ↔
      cBeg1 ∈ (initState [cBeg1]).filteredCourses ∧
      (strIncludes (lowerStr (cBeg1.title.getD "")) (searchNorm "One") ||
       strIncludes (lowerStr (cBeg1.description.getD "")) (searchNorm "One") ||
       strIncludes (lowerStr ((attrValue cBeg1 "tags").getD "")) (searchNorm "One"))
        = true :=
  (handleSearch_substring (initState [cBeg1]) "One" (by decide)).1 cBeg1

end CourseFilter
